import Mathlib

/-!
Shallow embedding of the rflow line-oriented messaging library
(src/src/lib.rs, src/src/client.rs, src/src/server.rs) and proofs about it.

Conventions: machine integers are `Nat`; fallible operations return
`Except`/`Option`; the I/O environment (durations of blocking steps, results
of socket writes, the stream of accepted connections) is passed explicitly as
data.  Each definition's doc comment names the source location it embeds.
-/

deriving instance DecidableEq for Except

namespace RFlow

/-- Wire constant `GREETING` (lib.rs:16). -/
def GREETING : String := "RFLOW"

/-- Wire constant `HEADERS_TRANSMISSION_END` (lib.rs:17). -/
def HEADERS_TRANSMISSION_END : String := "---"

/-- Wire constant `API_VERSION` (lib.rs:19). -/
def API_VERSION : Nat := 1

/-- Message direction (lib.rs:56-63).  `Last` is the internal
"unknown, use the last known direction" sentinel. -/
inductive Direction
  | ClientToServer
  | ServerToClient
  | Last
deriving DecidableEq, Repr

/-- Relevant `std::io::ErrorKind` values for modelling socket failures;
`timedOut` stands for the error a fired read/write timeout produces. -/
inductive IoKind
  | timedOut
  | brokenPipe
  | otherErr
deriving DecidableEq, Repr

/-- The library error type (lib.rs:97-116).  The source constructor `Io`
is named `IoError` here. -/
inductive Error
  | DataChannelTaken
  | IoError (k : IoKind)
  | ApiVersion (v : Nat)
  | InvalidData
  | InvalidAddress
  | Timeout
deriving DecidableEq, Repr

/-- `Direction::as_str` (lib.rs:72-78).  The `Last` arm of the source is
`unreachable!()`; it is modelled as `none`. -/
def Direction.as_str : Direction → Option String
  | .ClientToServer => some ">>>"
  | .ServerToClient => some "<<<"
  | .Last => none

/-- `Direction::as_char` (lib.rs:80-86).  The `Last` arm of the source is
`unreachable!()`; it is modelled as `none`. -/
def Direction.as_char : Direction → Option Char
  | .ClientToServer => some '>'
  | .ServerToClient => some '<'
  | .Last => none

/-- The two `strip_prefix` tests of the client reader (client.rs:182-187):
returns the direction and the remainder after the three-byte prefix when the
line begins with `>>>` or `<<<`, and `none` otherwise.  The two patterns are
disjoint, so testing them in source order is equivalent to this match. -/
def dirPfxOf (line : String) : Option (Direction × String) :=
  match line.data with
  | '>' :: '>' :: '>' :: rest => some (.ClientToServer, ⟨rest⟩)
  | '<' :: '<' :: '<' :: rest => some (.ServerToClient, ⟨rest⟩)
  | _ => none

/-- Outcome of the client reader's per-line step. -/
inductive ReaderStep
  | deliver (d : Direction) (msg : String) (newLast : Option Direction)
  | quit
deriving DecidableEq, Repr

/-- One iteration of the client reader loop body (client.rs:178-193): a
prefixed line is delivered with its remainder and recorded as the last seen
direction; an unprefixed line is delivered with the last seen direction, or,
when none was ever seen, the reader shuts the socket down and exits
(the source's `quit!()`). -/
def classifyLine (last_direction : Option Direction) (line : String) : ReaderStep :=
  match dirPfxOf line with
  | some (d, msg) => .deliver d msg (some d)
  | none =>
    match last_direction with
    | some d => .deliver d line (some d)
    | none => .quit

/-- How the client reader loop ended: regular end of stream, or the
`quit!()` shutdown path. -/
inductive ExitMode
  | eof
  | shutdown
deriving DecidableEq, Repr

/-- The client reader `handle_connection` loop (client.rs:176-196) over the
list of successfully read lines, assuming the consumer keeps the receiver
open: returns the delivered events in order and how the loop ended. -/
def readerRun : Option Direction → List String → List (Direction × String) × ExitMode
  | _, [] => ([], .eof)
  | last, line :: rest =>
    match classifyLine last line with
    | .deliver d msg newLast =>
      let r := readerRun newLast rest
      ((d, msg) :: r.1, r.2)
    | .quit => ([], .shutdown)

/-- Rust `str::split(sep)` on the character level: splitting the empty
string yields one empty field, a separator always opens a new field. -/
def splitOnChar (sep : Char) : List Char → List (List Char)
  | [] => [[]]
  | c :: rest =>
    if c = sep then [] :: splitOnChar sep rest
    else
      match splitOnChar sep rest with
      | [] => [[c]]
      | g :: gs => (c :: g) :: gs

/-- `line.split('/')` as used at client.rs:93. -/
def splitSlash (s : String) : List String :=
  (splitOnChar '/' s.data).map (fun l => ⟨l⟩)

/-- Rust `str::trim` (client.rs:103): remove whitespace from both ends. -/
def trimStr (s : String) : String :=
  ⟨((s.data.dropWhile Char.isWhitespace).reverse.dropWhile Char.isWhitespace).reverse⟩

/-- Rust `str::parse::<u8>` (used at client.rs:104): an optional leading
`+` sign, then one or more ASCII digits, value at most 255; anything else
(empty, stray characters, overflow) fails. -/
def parseU8 (s : String) : Option Nat :=
  let ds := match s.data with
            | '+' :: rest => rest
            | cs => cs
  if ds = [] then none
  else if ds.all Char.isDigit then
    let v := ds.foldl (fun a c => a * 10 + (c.toNat - 48)) 0
    if v ≤ 255 then some v else none
  else none

/-- The greeting-line check of `Client::connect_with_options`
(client.rs:93-111): split on `/`, require the first field to equal
`GREETING`, trim and parse the second field as a `u8`, and gate on
`API_VERSION`. -/
def greetingParse (line : String) : Except Error Nat :=
  match splitSlash line with
  | [] => .error .InvalidData
  | first :: rest =>
    if first ≠ GREETING then .error .InvalidData
    else
      match rest with
      | [] => .error .InvalidData
      | second :: _ =>
        match parseU8 (trimStr second) with
        | none => .error .InvalidData
        | some v => if v ≠ API_VERSION then .error (.ApiVersion v) else .ok v

/-- The header loop of `Client::connect_with_options` (client.rs:113-126):
read lines until `HEADERS_TRANSMISSION_END`, ignoring their content; end of
stream before the marker leaves `headers_end` false and yields
`InvalidData`.  Returns the lines remaining after the marker. -/
def readHeaders : List String → Except Error (List String)
  | [] => .error .InvalidData
  | l :: ls => if l = HEADERS_TRANSMISSION_END then .ok ls else readHeaders ls

/-- The handshake of `Client::connect_with_options` (client.rs:92-126) over
the list of lines received before EOF: read the greeting line (EOF first is
`InvalidData`, from `lines.next().ok_or(Error::InvalidData)`), check it,
then consume headers up to the end marker. -/
def connectHandshake (lines : List String) : Except Error (Nat × List String) :=
  match lines with
  | [] => .error .InvalidData
  | greeting :: rest =>
    match greetingParse greeting with
    | .error e => .error e
    | .ok v =>
      match readHeaders rest with
      | .error e => .error e
      | .ok remaining => .ok (v, remaining)

/-- `Client::try_send` (client.rs:146-151) with the outcome of the
underlying `write_all` passed in as data (`none` = success, `some k` = an
I/O error of kind `k`; a fired write timeout is `some .timedOut`).  Returns
the bytes handed to the socket (`format!("{}\n", data)`) and the result:
every I/O error is mapped through `map_err(Into::into)`, i.e. to
`Error::Io`. -/
def Client.try_send (data : String) (writeResult : Option IoKind) :
    String × Except Error Unit :=
  (data ++ "\n",
   match writeResult with
   | none => .ok ()
   | some k => .error (.IoError k))

/-- A bounded channel endpoint of the dependency `rtsc::channel`, as data:
capacity, current buffer (enqueue at the tail), and whether the receiving
side is gone.  Modelled from the spec: `BoundedChannel<T>` (§3), a
fixed-capacity FIFO whose `try_send` fails immediately on a full channel and
whose blocking `send` stalls instead (§4.5). -/
structure Chan (α : Type) where
  capacity : Nat
  buf : List α
  closed : Bool
deriving DecidableEq, Repr

/-- Errors of the dependency's `try_send`; the source compares against
`rtsc::Error::ChannelFull` (server.rs:146). -/
inductive ChanErr
  | channelFull
  | channelClosed
deriving DecidableEq, Repr

/-- Modelled from the spec: non-blocking `try_send` of the dependency's
bounded channel (§3, §4.3) — a closed channel errors, a full channel errors
with `channelFull`, otherwise the value is enqueued.  It never waits. -/
def Chan.try_send {α : Type} (q : Chan α) (v : α) : Except ChanErr (Chan α) :=
  if q.closed then .error .channelClosed
  else if q.capacity ≤ q.buf.length then .error .channelFull
  else .ok { q with buf := q.buf ++ [v] }

/-- Outcome of one blocking-`send` attempt against a channel in a given
state: enqueued, suspended awaiting space, or failed because the channel is
closed. -/
inductive SendOutcome (α : Type)
  | sent (q : Chan α)
  | blocks
  | closedErr
deriving DecidableEq, Repr

/-- Modelled from the spec: blocking `send` of the dependency's bounded
channel (§4.5: "the application-facing incoming channel uses blocking send
from the server reader (a full channel stalls that connection's reader)") —
a closed channel returns an error, a full channel suspends the caller,
otherwise the value is enqueued. -/
def Chan.send {α : Type} (q : Chan α) (v : α) : SendOutcome α :=
  if q.closed then .closedErr
  else if q.capacity ≤ q.buf.length then .blocks
  else .sent { q with buf := q.buf ++ [v] }

/-- `Inner::send` (server.rs:143-152): iterate over the registry in order,
offering `(direction, data)` to each client's outgoing queue with
`try_send`; a `ChannelFull` error logs a warning (the returned id list),
all other errors are ignored.  Returns the updated registry and the ids
warned about. -/
def Inner.send (direction : Direction) (data : String) :
    List (Nat × Chan (Direction × String)) →
    List (Nat × Chan (Direction × String)) × List Nat
  | [] => ([], [])
  | (id, q) :: rest =>
    match q.try_send (direction, data) with
    | .ok q' =>
      let r := Inner.send direction data rest
      ((id, q') :: r.1, r.2)
    | .error .channelFull =>
      let r := Inner.send direction data rest
      ((id, q) :: r.1, id :: r.2)
    | .error .channelClosed =>
      let r := Inner.send direction data rest
      ((id, q) :: r.1, r.2)

/-- The server state touched by `Server::send`: the `client_count` atomic
and the client registry (server.rs:131-140); each registry entry pairs a
client id with that client's outgoing queue. -/
structure ServerState where
  client_count : Nat
  clients : List (Nat × Chan (Direction × String))
deriving DecidableEq, Repr

/-- `Server::send` (server.rs:83-89): when `client_count` is positive, the
payload is converted to a string once (`data.to_string().into()`, the single
shared-reference wrap) and broadcast as `ServerToClient` through
`Inner::send`; otherwise nothing happens.  Returns the new state and the
ids of clients whose full queues caused the message to be dropped with a
warning. -/
def Server.send (st : ServerState) (data : String) : ServerState × List Nat :=
  if 0 < st.client_count then
    let r := Inner.send .ServerToClient data st.clients
    ({ st with clients := r.1 }, r.2)
  else (st, [])

/-- Result of forwarding one inbound line to the application's incoming
channel from the server connection reader. -/
inductive ForwardResult
  | delivered (q : Chan String)
  | blocks
  | fatal
deriving DecidableEq, Repr

/-- The incoming-channel step of the server reader loop (server.rs:184-186):
`incoming_data_tx.send(line.clone())?` — a blocking send whose error (the
channel is closed) propagates through `?` and ends that connection's
reader; a full channel makes the send wait. -/
def forwardIncoming (incoming : Chan String) (line : String) : ForwardResult :=
  match incoming.send line with
  | .sent q' => .delivered q'
  | .blocks => .blocks
  | .closedErr => .fatal

/-- Socket operations performed by the server connection handler, in
program order. -/
inductive SockOp
  | setWriteTimeout (d : Nat)
  | setNodelay (b : Bool)
  | writeBytes (s : String)
  | readLine
  | shutdown
deriving DecidableEq, Repr

/-- The handshake bytes emitted by `handle_connection` (server.rs:163-169):
`format!("{}/{}\n{}\n", GREETING, API_VERSION, HEADERS_TRANSMISSION_END)`. -/
def serverHandshake : String :=
  GREETING ++ "/" ++ toString API_VERSION ++ "\n" ++ HEADERS_TRANSMISSION_END ++ "\n"

/-- The socket operations of the server `handle_connection` prologue
(server.rs:161-169), before the writer thread is spawned and the reader
loop starts: set the write timeout, disable Nagle, write the handshake.
All later operations of the handler and of its writer thread come after
this prologue. -/
def handlerPrologue (timeout : Nat) : List SockOp :=
  [.setWriteTimeout timeout, .setNodelay true, .writeBytes serverHandshake]

/-- The payload of the first `writeBytes` operation in a trace, if any. -/
def firstWrite : List SockOp → Option String
  | [] => none
  | .writeBytes s :: _ => some s
  | _ :: rest => firstWrite rest

/-- Whether a `readLine` occurs before the first `writeBytes` of a trace. -/
def readBeforeFirstWrite : List SockOp → Bool
  | [] => false
  | .writeBytes _ :: _ => false
  | .readLine :: _ => true
  | _ :: rest => readBeforeFirstWrite rest

/-- One frame as emitted by the server writer thread (server.rs:173-177):
the direction bytes, the payload, then a newline.  On the sentinel
direction the source's `as_bytes` is unreachable; modelled as `none`. -/
def writerLine (d : Direction) (data : String) : Option String :=
  (Direction.as_str d).map (fun p => p ++ data ++ "\n")

/-- All payload entries of an outgoing queue carry a real wire direction
(never the `Last` sentinel). -/
abbrev QueueOk (q : Chan (Direction × String)) : Prop :=
  ∀ e ∈ q.buf, e.1 ≠ Direction.Last

/-- A run of the timed part of `Client::connect_with_options`: the final
result, the total elapsed time at return, and, for each `set_read_timeout`
the source executes before a read, the pair (elapsed time at the call,
installed timeout value). -/
structure ConnectRun where
  result : Except Error Unit
  elapsed : Nat
  installed : List (Nat × Nat)
deriving DecidableEq, Repr

/-- The header loop of the connect handshake, timing view
(client.rs:116-122).  `endDur` is how long the read of the
`HEADERS_TRANSMISSION_END` line takes, `hdrDurs` the durations of the
header-line reads before it, `inst` the read timeout currently installed,
and `acc` the `set_read_timeout` trace so far.  A read whose line would
arrive no sooner than the installed timeout fails with a timed-out I/O
error (surfaced as `Error::Io` through `line?`).  After each non-final
line the source reinstalls `op.remaining()?`, whose exhaustion returns
`Error::Timeout`. -/
def headerPhase (timeout endDur : Nat) :
    Nat → Nat → List Nat → List (Nat × Nat) → ConnectRun
  | elapsed, inst, [], acc =>
    if inst ≤ endDur then ⟨.error (.IoError .timedOut), elapsed + inst, acc⟩
    else ⟨.ok (), elapsed + endDur, acc⟩
  | elapsed, inst, d :: rest, acc =>
    if inst ≤ d then ⟨.error (.IoError .timedOut), elapsed + inst, acc⟩
    else
      if timeout ≤ elapsed + d then ⟨.error .Timeout, elapsed + d, acc⟩
      else
        headerPhase timeout endDur (elapsed + d) (timeout - (elapsed + d)) rest
          (acc ++ [(elapsed + d, timeout - (elapsed + d))])

/-- Timing skeleton of `Client::connect_with_options` (client.rs:77-128)
with the duration of each blocking step passed in as data and the line
contents assumed well-formed.  The cumulative deadline `op` is created at
connect start (client.rs:78); `connect_timeout` uses the full per-step
timeout (client.rs:79-85); the greeting read runs under the read timeout
installed at client.rs:86, which is the full `timeout`; only afterwards is
`op.remaining()?` installed (client.rs:114), whose exhaustion returns
`Error::Timeout`, and the header loop keeps reinstalling it
(client.rs:121). -/
def connectTimed (timeout connectDur greetingDur : Nat) (hdrDurs : List Nat)
    (endDur : Nat) : ConnectRun :=
  if timeout ≤ connectDur then ⟨.error (.IoError .timedOut), timeout, []⟩
  else if timeout ≤ greetingDur then
    ⟨.error (.IoError .timedOut), connectDur + timeout, [(connectDur, timeout)]⟩
  else
    if timeout ≤ connectDur + greetingDur then
      ⟨.error .Timeout, connectDur + greetingDur, [(connectDur, timeout)]⟩
    else
      headerPhase timeout endDur (connectDur + greetingDur)
        (timeout - (connectDur + greetingDur)) hdrDurs
        [(connectDur, timeout), (connectDur + greetingDur, timeout - (connectDur + greetingDur))]

/-- The server state touched by connection admission and teardown: the
`client_count` atomic and the set of registry keys (server.rs:108-123). -/
structure RegState where
  client_count : Nat
  registry : List Nat
deriving DecidableEq, Repr

/-- `BTreeMap::insert` on the key set: a new key is appended, an existing
key only has its value replaced. -/
def regInsert (id : Nat) (r : List Nat) : List Nat :=
  if id ∈ r then r else r ++ [id]

/-- The four individually-atomic state updates of admission and teardown:
registry insert (server.rs:109-112), `client_count` increment
(server.rs:115-117), `client_count` decrement (server.rs:121), registry
removal (server.rs:122).  No two of them happen as one atomic action. -/
inductive AdmOp
  | insert (id : Nat)
  | incr
  | decr
  | remove (id : Nat)
deriving DecidableEq, Repr

/-- Effect of one admission/teardown update on the shared state. -/
def RegState.step (st : RegState) : AdmOp → RegState
  | .insert id => { st with registry := regInsert id st.registry }
  | .incr => { st with client_count := st.client_count + 1 }
  | .decr => { st with client_count := st.client_count - 1 }
  | .remove id => { st with registry := st.registry.erase id }

/-- Connection admission in `serve_with_listener` (server.rs:109-117), in
source order: first the registry insert, then the counter increment.
Returns the intermediate state (observable under the registry lock between
the two updates) and the final state. -/
def admission (st : RegState) (id : Nat) : RegState × RegState :=
  let mid := st.step (.insert id)
  (mid, mid.step .incr)

/-- Handler teardown (server.rs:121-122), in source order: first the
counter decrement, then the registry removal.  Returns the intermediate
state and the final state. -/
def teardown (st : RegState) (id : Nat) : RegState × RegState :=
  let mid := st.step .decr
  (mid, mid.step (.remove id))

/-- One result of `listener.accept()`: a connection or an I/O error. -/
inductive AcceptResult
  | conn (id : Nat)
  | err (k : IoKind)
deriving DecidableEq, Repr

/-- The id carried by a successful accept. -/
def AcceptResult.connId : AcceptResult → Option Nat
  | .conn id => some id
  | .err _ => none

/-- `Server::serve_with_listener` (server.rs:96-126) over the stream of
accept results: `while let Ok((socket, addr)) = listener.accept()` admits
connections until the first accept error, which exits the loop; the
function then returns `Ok(())`, discarding the error.  Returns the admitted
connection ids in order and the final result. -/
def serve_with_listener : List AcceptResult → List Nat × Except Error Unit
  | [] => ([], .ok ())
  | .conn id :: rest =>
    let r := serve_with_listener rest
    (id :: r.1, r.2)
  | .err _ :: _ => ([], .ok ())

/-- `Server::serve` (server.rs:91-94): `TcpListener::bind(addr)?` surfaces
a bind failure as `Error::Io`; otherwise the accept loop runs. -/
def serve (bindResult : Except IoKind (List AcceptResult)) :
    List Nat × Except Error Unit :=
  match bindResult with
  | .error k => ([], .error (.IoError k))
  | .ok accepts => serve_with_listener accepts

/-! Helper lemmas. -/

/-- Extensional characterization of `Inner::send`: every registry entry is
offered the message independently — a closed or full queue is left
unchanged, any other queue gains the entry at its tail — and the warned ids
are exactly the ids of the open-but-full queues, in registry order. -/
theorem inner_send_spec (d : Direction) (data : String)
    (cs : List (Nat × Chan (Direction × String))) :
    (Inner.send d data cs).1 = cs.map (fun c =>
      (c.1, if c.2.closed then c.2
            else if c.2.capacity ≤ c.2.buf.length then c.2
            else { c.2 with buf := c.2.buf ++ [(d, data)] })) ∧
    (Inner.send d data cs).2 =
      (cs.filter (fun c => !c.2.closed && decide (c.2.capacity ≤ c.2.buf.length))).map
        (fun c => c.1) := by
  induction cs with
  | nil => exact ⟨rfl, rfl⟩
  | cons c tl ih =>
    obtain ⟨id, q⟩ := c
    by_cases hc : q.closed
    · simp [Inner.send, Chan.try_send, hc, ih.1, ih.2]
    · by_cases hf : q.capacity ≤ q.buf.length
      · simp [Inner.send, Chan.try_send, hc, hf, ih.1, ih.2]
      · simp [Inner.send, Chan.try_send, hc, hf, ih.1, ih.2]

/-- `Inner::send` preserves the absence of the `Last` sentinel in every
outgoing queue, provided the broadcast direction is a real one. -/
theorem inner_send_queueOk (d : Direction) (data : String)
    (cs : List (Nat × Chan (Direction × String))) (hd : d ≠ Direction.Last)
    (hcs : ∀ c ∈ cs, QueueOk c.2) :
    ∀ c ∈ (Inner.send d data cs).1, QueueOk c.2 := by
  intro c hc
  rw [(inner_send_spec d data cs).1] at hc
  obtain ⟨c0, hc0, rfl⟩ := List.mem_map.mp hc
  intro e he
  by_cases hcl : c0.2.closed
  · simp only [hcl, if_true] at he
    exact hcs c0 hc0 e he
  · by_cases hf : c0.2.capacity ≤ c0.2.buf.length
    · simp only [hcl, hf, if_false, if_true] at he
      exact hcs c0 hc0 e he
    · simp only [hcl, hf, if_false] at he
      rcases List.mem_append.mp he with hold | hnew
      · exact hcs c0 hc0 e hold
      · rcases List.mem_singleton.mp hnew with rfl
        exact hd

/-- A direction other than the sentinel has a string form. -/
theorem as_str_isSome (d : Direction) (h : d ≠ Direction.Last) :
    (Direction.as_str d).isSome = true := by
  cases d with
  | ClientToServer => rfl
  | ServerToClient => rfl
  | Last => exact absurd rfl h

/-- A recognized prefix is one of the two real directions. -/
theorem dirPfxOf_dir (line : String) (d : Direction) (m : String)
    (h : dirPfxOf line = some (d, m)) : d ≠ Direction.Last := by
  unfold dirPfxOf at h
  split at h
  · simp only [Option.some.injEq, Prod.mk.injEq] at h
    rcases h with ⟨rfl, rfl⟩
    simp
  · simp only [Option.some.injEq, Prod.mk.injEq] at h
    rcases h with ⟨rfl, rfl⟩
    simp
  · exact absurd h (by simp)

/-- Every event the client reader delivers carries a real direction, as
long as the tracked last direction is not the sentinel (it starts as
`none` and is only ever set from a recognized prefix). -/
theorem readerRun_dir (lines : List String) :
    ∀ last, (∀ d0, last = some d0 → d0 ≠ Direction.Last) →
      ∀ ev ∈ (readerRun last lines).1, ev.1 ≠ Direction.Last := by
  induction lines with
  | nil => intro last _ ev hev; simp [readerRun] at hev
  | cons line rest ih =>
    intro last h ev hev
    unfold readerRun at hev
    cases hcl : classifyLine last line with
    | quit => rw [hcl] at hev; simp at hev
    | deliver d msg newLast =>
      rw [hcl] at hev
      simp only [List.mem_cons] at hev
      have hd : d ≠ Direction.Last ∧
          (∀ d0, newLast = some d0 → d0 ≠ Direction.Last) := by
        unfold classifyLine at hcl
        rcases hpf : dirPfxOf line with _ | ⟨d', m'⟩
        · rw [hpf] at hcl
          rcases hl : last with _ | d0
          · rw [hl] at hcl; exact absurd hcl (by simp)
          · rw [hl] at hcl
            simp only [ReaderStep.deliver.injEq] at hcl
            obtain ⟨rfl, -, rfl⟩ := hcl
            exact ⟨h d0 hl, fun d1 h1 => by
              rcases Option.some.injEq .. ▸ h1 with rfl
              exact h d0 hl⟩
        · rw [hpf] at hcl
          simp only [ReaderStep.deliver.injEq] at hcl
          obtain ⟨rfl, -, rfl⟩ := hcl
          have := dirPfxOf_dir line d' m' hpf
          exact ⟨this, fun d1 h1 => by
            rcases Option.some.injEq .. ▸ h1 with rfl
            exact this⟩
      rcases hev with rfl | hmem
      · exact hd.1
      · exact ih newLast hd.2 ev hmem

/-- The accept loop's return value is `Ok(())` no matter how the accept
stream ends. -/
theorem swl_ok (accepts : List AcceptResult) :
    (serve_with_listener accepts).2 = .ok () := by
  induction accepts with
  | nil => rfl
  | cons a rest ih =>
    cases a with
    | conn id => simpa [serve_with_listener] using ih
    | err k => rfl

/-- A header-line stream without the end marker leaves `headers_end`
false. -/
theorem readHeaders_no_marker (hdrs : List String)
    (h : HEADERS_TRANSMISSION_END ∉ hdrs) :
    readHeaders hdrs = .error .InvalidData := by
  induction hdrs with
  | nil => rfl
  | cons l ls ih =>
    have hne : l ≠ HEADERS_TRANSMISSION_END := fun hl => h (by simp [hl])
    simp only [readHeaders, if_neg hne]
    exact ih (fun hm => h (List.mem_cons_of_mem _ hm))

/-- The read timeouts the header phase installs are always the remaining
cumulative deadline, and it only appends to the install trace. -/
theorem headerPhase_installed (t eD : Nat) (l : List Nat) :
    ∀ (e i : Nat) (acc : List (Nat × Nat)),
      ∃ extra, (headerPhase t eD e i l acc).installed = acc ++ extra ∧
        ∀ p ∈ extra, p.2 = t - p.1 ∧ p.1 < t := by
  induction l with
  | nil =>
    intro e i acc
    refine ⟨[], ?_, by simp⟩
    by_cases h : i ≤ eD <;> simp [headerPhase, h]
  | cons d rest ih =>
    intro e i acc
    by_cases h1 : i ≤ d
    · exact ⟨[], by simp [headerPhase, h1], by simp⟩
    · by_cases h2 : t ≤ e + d
      · exact ⟨[], by simp [headerPhase, h1, h2], by simp⟩
      · obtain ⟨extra, hInst, hP⟩ :=
          ih (e + d) (t - (e + d)) (acc ++ [(e + d, t - (e + d))])
        refine ⟨(e + d, t - (e + d)) :: extra, ?_, ?_⟩
        · simp only [headerPhase, if_neg h1, if_neg h2]
          rw [hInst, List.append_assoc]
          rfl
        · intro p hp
          rcases List.mem_cons.mp hp with rfl | hp'
          · exact ⟨rfl, by omega⟩
          · exact hP p hp'

/-- When the header phase returns `Timeout`, the cumulative deadline is
exhausted at the moment of return. -/
theorem headerPhase_timeout (t eD : Nat) (l : List Nat) :
    ∀ e i acc, (headerPhase t eD e i l acc).result = .error .Timeout →
      t ≤ (headerPhase t eD e i l acc).elapsed := by
  induction l with
  | nil =>
    intro e i acc h
    by_cases hc : i ≤ eD <;> simp [headerPhase, hc] at h
  | cons d rest ih =>
    intro e i acc h
    by_cases h1 : i ≤ d
    · simp [headerPhase, h1] at h
    · by_cases h2 : t ≤ e + d
      · simp only [headerPhase, if_neg h1, if_pos h2]
        exact h2
      · simp only [headerPhase, if_neg h1, if_neg h2] at h ⊢
        exact ih _ _ _ h

/-! Claim theorems. -/

/-- C1: for every line the client reader reads, with `last` the tracked
last seen direction (`some d` exactly when a prefixed line was seen
earlier, `none` otherwise): a line beginning with the three-byte prefix
`>>>` (resp. `<<<`) is delivered as `(ClientToServer, remainder)` (resp.
`(ServerToClient, remainder)`) with no further trimming and that direction
is recorded as the last seen one; a line with no recognized prefix is
delivered as `(last seen direction, whole line)` when one exists; and when
none exists the reader shuts the socket down and exits, delivering
nothing. -/
theorem client_reader_line_classification (last : Option Direction) (line : String) :
    (∀ m, line = ">>>" ++ m →
      classifyLine last line = .deliver .ClientToServer m (some .ClientToServer)) ∧
    (∀ m, line = "<<<" ++ m →
      classifyLine last line = .deliver .ServerToClient m (some .ServerToClient)) ∧
    (dirPfxOf line = none →
      (∀ d, last = some d → classifyLine last line = .deliver d line (some d)) ∧
      (last = none → ∀ rest, readerRun last (line :: rest) = ([], .shutdown))) := by
  refine ⟨?_, ?_, ?_⟩
  · rintro ⟨m⟩ rfl
    rfl
  · rintro ⟨m⟩ rfl
    rfl
  · intro h
    constructor
    · rintro d rfl
      simp [classifyLine, h]
    · rintro rfl rest
      simp [readerRun, classifyLine, h]

/-- Witness for C1 at concrete lines: a `>>>`-prefixed line, a
`<<<`-prefixed line, a continuation line with a prior direction, and a
continuation line with none (which shuts the reader down). -/
theorem client_reader_line_classification_witness :
    classifyLine (some .ServerToClient) ">>>hi" =
      .deliver .ClientToServer "hi" (some .ClientToServer) ∧
    classifyLine (some .ClientToServer) "<<< x " =
      .deliver .ServerToClient " x " (some .ServerToClient) ∧
    classifyLine (some .ClientToServer) "bare" =
      .deliver .ClientToServer "bare" (some .ClientToServer) ∧
    readerRun none ["bare", ">>>late"] = ([], .shutdown) := by
  refine ⟨?_, ?_, ?_, ?_⟩
  · exact (client_reader_line_classification (some .ServerToClient) ">>>hi").1
      "hi" (by decide)
  · exact (client_reader_line_classification (some .ClientToServer) "<<< x ").2.1
      " x " (by decide)
  · exact ((client_reader_line_classification (some .ClientToServer) "bare").2.2
      (by decide)).1 .ClientToServer rfl
  · exact ((client_reader_line_classification none "bare").2.2 (by decide)).2
      rfl [">>>late"]

/-- C2 counterexample: the byte sequence the handler writes first is
`RFLOW/1\n---\n`, which is twelve bytes (all characters are ASCII), not
ten as the claim states. -/
theorem server_handshake_not_ten_bytes :
    firstWrite (handlerPrologue 5 ++ [SockOp.readLine]) = some serverHandshake ∧
    serverHandshake = "RFLOW/1\n---\n" ∧
    serverHandshake.length = 12 ∧ ¬ serverHandshake.length = 10 := by decide

/-- C2 (amended): for every accepted server-side connection, the first
bytes written to the socket are exactly the twelve bytes `RFLOW/1\n---\n`,
and the handler performs no read from that socket before this handshake
has been written — whatever socket operations (reads of the connection
reader, frames of the writer thread) follow the prologue. -/
theorem server_handshake_first_and_unread (timeout : Nat) (rest : List SockOp) :
    firstWrite (handlerPrologue timeout ++ rest) = some serverHandshake ∧
    readBeforeFirstWrite (handlerPrologue timeout ++ rest) = false ∧
    serverHandshake = "RFLOW/1\n---\n" ∧
    serverHandshake.length = 12 :=
  ⟨rfl, rfl, by decide, by decide⟩

/-- C3 counterexample: the source trims the version field before parsing
(client.rs:103), so for the greeting line `RFLOW/ 1` the second field
` 1` does not parse as a `u8`, yet connect does not return `InvalidData`
— the handshake check succeeds. -/
theorem client_version_field_trim_cex :
    parseU8 " 1" = none ∧
    greetingParse "RFLOW/ 1" = .ok 1 ∧
    greetingParse "RFLOW/ 1" ≠ .error .InvalidData := by decide

/-- C3 (amended): the first received line is split on `/`; if the first
field is not `RFLOW`, or the second field is missing, or the second field
after trimming surrounding whitespace does not parse as a `u8`, connect
returns `InvalidData`; if the trimmed field parses as a `u8` `v` with
`v ≠ 1`, connect returns `ApiVersion v`; and EOF before the `---`
headers-end line (or before the greeting line) also returns
`InvalidData`. -/
theorem client_greeting_gate (line first : String) (rest2 : List String)
    (hdrs : List String) :
    (splitSlash line = first :: rest2 →
      ((first ≠ GREETING → greetingParse line = .error .InvalidData) ∧
       (first = GREETING → rest2 = [] → greetingParse line = .error .InvalidData) ∧
       (∀ second t2, rest2 = second :: t2 → first = GREETING →
         ((parseU8 (trimStr second) = none →
            greetingParse line = .error .InvalidData) ∧
          (∀ v, parseU8 (trimStr second) = some v → v ≠ API_VERSION →
            greetingParse line = .error (.ApiVersion v)) ∧
          (parseU8 (trimStr second) = some API_VERSION →
            greetingParse line = .ok API_VERSION))))) ∧
    (HEADERS_TRANSMISSION_END ∉ hdrs → readHeaders hdrs = .error .InvalidData) ∧
    connectHandshake [] = .error .InvalidData ∧
    (∀ g more e, greetingParse g = .error e →
      connectHandshake (g :: more) = .error e) := by
  refine ⟨?_, readHeaders_no_marker hdrs, rfl, ?_⟩
  · intro hsp
    refine ⟨?_, ?_, ?_⟩
    · intro hne
      simp [greetingParse, hsp, hne]
    · rintro rfl rfl
      simp [greetingParse, hsp]
    · rintro second t2 rfl rfl
      refine ⟨?_, ?_, ?_⟩
      · intro hp
        simp [greetingParse, hsp, hp]
      · intro v hp hv
        simp [greetingParse, hsp, hp, hv]
      · intro hp
        simp [greetingParse, hsp, hp]
  · intro g more e hg
    simp [connectHandshake, hg]

/-- Witness for C3 (amended) at concrete greeting lines and header
streams, covering every outcome: bad greeting word, missing version field,
unparseable version, version mismatch, success, headers without the end
marker, EOF before the greeting, and error propagation. -/
theorem client_greeting_gate_witness :
    greetingParse "FOO/1" = .error .InvalidData ∧
    greetingParse "RFLOW" = .error .InvalidData ∧
    greetingParse "RFLOW/x" = .error .InvalidData ∧
    greetingParse "RFLOW/2" = .error (.ApiVersion 2) ∧
    greetingParse "RFLOW/1" = .ok 1 ∧
    readHeaders ["h1", "h2"] = .error .InvalidData ∧
    connectHandshake [] = .error .InvalidData ∧
    connectHandshake ["RFLOW/2", "---"] = .error (.ApiVersion 2) := by
  refine ⟨?_, ?_, ?_, ?_, ?_, ?_, ?_, ?_⟩
  · exact ((client_greeting_gate "FOO/1" "FOO" ["1"] []).1 (by decide)).1 (by decide)
  · exact ((client_greeting_gate "RFLOW" "RFLOW" [] []).1 (by decide)).2.1 rfl rfl
  · exact (((client_greeting_gate "RFLOW/x" "RFLOW" ["x"] []).1 (by decide)).2.2
      "x" [] rfl rfl).1 (by decide)
  · exact (((client_greeting_gate "RFLOW/2" "RFLOW" ["2"] []).1 (by decide)).2.2
      "2" [] rfl rfl).2.1 2 (by decide) (by decide)
  · exact (((client_greeting_gate "RFLOW/1" "RFLOW" ["1"] []).1 (by decide)).2.2
      "1" [] rfl rfl).2.2 (by decide)
  · exact (client_greeting_gate "z" "z" [] ["h1", "h2"]).2.1 (by decide)
  · exact (client_greeting_gate "z" "z" [] []).2.2.1
  · exact (client_greeting_gate "z" "z" [] []).2.2.2 "RFLOW/2" ["---"]
      (.ApiVersion 2) (by decide)

/-- C4: `Server::send` does nothing when `client_count` is zero; otherwise
the payload is converted once and the single resulting value is offered as
`(ServerToClient, payload)` to every entry of the client registry via
`try_send`: a full outgoing queue leaves the queue unchanged and warns
about that client, a closed queue is skipped silently, any other queue
gains exactly that entry, and no call waits — every registry entry is
processed and mapped to one of these three immediate outcomes. -/
theorem server_send_policy (st : ServerState) (data : String) :
    (st.client_count = 0 → Server.send st data = (st, [])) ∧
    (0 < st.client_count →
      (Server.send st data).1.client_count = st.client_count ∧
      (Server.send st data).1.clients = st.clients.map (fun c =>
        (c.1, if c.2.closed then c.2
              else if c.2.capacity ≤ c.2.buf.length then c.2
              else { c.2 with buf := c.2.buf ++ [(Direction.ServerToClient, data)] })) ∧
      (Server.send st data).2 =
        (st.clients.filter
          (fun c => !c.2.closed && decide (c.2.capacity ≤ c.2.buf.length))).map
          (fun c => c.1)) := by
  constructor
  · intro h0
    simp [Server.send, h0]
  · intro hpos
    have hs := inner_send_spec .ServerToClient data st.clients
    refine ⟨?_, ?_, ?_⟩
    · simp [Server.send, hpos]
    · simp [Server.send, hpos, hs.1]
    · simp [Server.send, hpos, hs.2]

/-- Witness for C4 at a concrete state: with no clients counted, nothing
happens; with three registered clients — one with room, one full, one
closed — the roomy queue gains the payload, the full one is warned about
and dropped, the closed one is skipped. -/
theorem server_send_policy_witness :
    Server.send ⟨0, [(9, ⟨1, [], false⟩)]⟩ "z" = (⟨0, [(9, ⟨1, [], false⟩)]⟩, []) ∧
    (Server.send ⟨1, [(0, ⟨1, [], false⟩), (1, ⟨0, [], false⟩),
        (2, ⟨1, [], true⟩)]⟩ "m").1.clients =
      [(0, ⟨1, [(.ServerToClient, "m")], false⟩), (1, ⟨0, [], false⟩),
       (2, ⟨1, [], true⟩)] ∧
    (Server.send ⟨1, [(0, ⟨1, [], false⟩), (1, ⟨0, [], false⟩),
        (2, ⟨1, [], true⟩)]⟩ "m").2 = [1] := by
  have h := (server_send_policy
    ⟨1, [(0, ⟨1, [], false⟩), (1, ⟨0, [], false⟩), (2, ⟨1, [], true⟩)]⟩ "m").2
    (by decide)
  exact ⟨(server_send_policy ⟨0, [(9, ⟨1, [], false⟩)]⟩ "z").1 rfl,
    h.2.1.trans (by decide), h.2.2.trans (by decide)⟩

/-- C5 counterexample: at a full but open incoming channel the server
reader's forward step blocks; it is not the fatal error the claim
asserts. -/
theorem incoming_full_blocks_cex :
    (⟨1, ["a"], false⟩ : Chan String).closed = false ∧
    (⟨1, ["a"], false⟩ : Chan String).capacity ≤
      (⟨1, ["a"], false⟩ : Chan String).buf.length ∧
    forwardIncoming ⟨1, ["a"], false⟩ "x" = .blocks ∧
    forwardIncoming ⟨1, ["a"], false⟩ "x" ≠ .fatal := by decide

/-- C5 (amended): when the server connection reader forwards an inbound
line to the application's incoming channel, a closed channel is a fatal
connection error that ends that connection's reader, while a full channel
makes the send block (stalling that connection's reader, as §4.5 states)
rather than fail; with room available the line is enqueued. -/
theorem incoming_forward_policy (q : Chan String) (line : String) :
    (q.closed = true → forwardIncoming q line = .fatal) ∧
    (q.closed = false → q.capacity ≤ q.buf.length →
      forwardIncoming q line = .blocks) ∧
    (q.closed = false → q.buf.length < q.capacity →
      forwardIncoming q line = .delivered { q with buf := q.buf ++ [line] }) := by
  refine ⟨?_, ?_, ?_⟩
  · intro h
    simp [forwardIncoming, Chan.send, h]
  · intro h hf
    simp [forwardIncoming, Chan.send, h, hf]
  · intro h hr
    simp [forwardIncoming, Chan.send, h, Nat.not_le.mpr hr]

/-- Witness for C5 (amended) at concrete channels: closed is fatal, full
blocks, room delivers. -/
theorem incoming_forward_policy_witness :
    forwardIncoming (⟨1, [], true⟩ : Chan String) "x" = .fatal ∧
    forwardIncoming (⟨1, ["a"], false⟩ : Chan String) "y" = .blocks ∧
    forwardIncoming (⟨2, ["a"], false⟩ : Chan String) "z" =
      .delivered ⟨2, ["a", "z"], false⟩ :=
  ⟨(incoming_forward_policy ⟨1, [], true⟩ "x").1 rfl,
   (incoming_forward_policy ⟨1, ["a"], false⟩ "y").2.1 rfl (by decide),
   (incoming_forward_policy ⟨2, ["a"], false⟩ "z").2.2 rfl (by decide)⟩

/-- C6 counterexample: with `timeout = 5`, a connect step lasting 4 and a
greeting read lasting 4, the read timeout installed for the greeting read
is the full 5 although only `5 - 4 = 1` of the cumulative deadline
remains, and connect returns at elapsed time 8, past the deadline — both
impossible were every blocking step bounded by the remaining deadline
computed at connect start. -/
theorem connect_deadline_cex :
    connectTimed 5 4 4 [] 0 = ⟨.error .Timeout, 8, [(4, 5)]⟩ ∧
    (5 : Nat) < (connectTimed 5 4 4 [] 0).elapsed ∧
    (connectTimed 5 4 4 [] 0).installed = [(4, 5)] ∧
    (5 : Nat) - 4 = 1 ∧ (1 : Nat) < 5 := by decide

/-- C6 (amended): the connect step and the greeting read run only under
the per-step timeout — the read timeout installed for the greeting read is
the full configured timeout, regardless of the time the connect step
consumed; the remaining cumulative deadline is first applied when the
header phase begins, every later installed read timeout equals the
remaining deadline at its install point, and whenever connect returns
`Timeout` the cumulative deadline was exhausted. -/
theorem connect_timeout_discipline (t cD gD eD : Nat) (hdrs : List Nat) :
    (cD < t → (connectTimed t cD gD hdrs eD).installed.head? = some (cD, t)) ∧
    (∀ p ∈ (connectTimed t cD gD hdrs eD).installed.drop 1,
      p.2 = t - p.1 ∧ p.1 < t) ∧
    ((connectTimed t cD gD hdrs eD).result = .error .Timeout →
      t ≤ (connectTimed t cD gD hdrs eD).elapsed) := by
  by_cases h1 : t ≤ cD
  · refine ⟨fun hlt => absurd h1 (by omega), ?_, ?_⟩
    · simp [connectTimed, h1]
    · simp [connectTimed, h1]
  · by_cases h2 : t ≤ gD
    · refine ⟨fun _ => ?_, ?_, ?_⟩
      · simp [connectTimed, h1, h2]
      · simp [connectTimed, h1, h2]
      · simp [connectTimed, h1, h2]
    · by_cases h3 : t ≤ cD + gD
      · refine ⟨fun _ => ?_, ?_, ?_⟩
        · simp [connectTimed, h1, h2, h3]
        · simp [connectTimed, h1, h2, h3]
        · simp only [connectTimed, if_neg h1, if_neg h2, if_pos h3]
          intro _
          exact h3
      · obtain ⟨extra, hInst, hP⟩ := headerPhase_installed t eD hdrs
          (cD + gD) (t - (cD + gD))
          [(cD, t), (cD + gD, t - (cD + gD))]
        refine ⟨fun _ => ?_, ?_, ?_⟩
        · simp only [connectTimed, if_neg h1, if_neg h2, if_neg h3]
          rw [hInst]
          rfl
        · simp only [connectTimed, if_neg h1, if_neg h2, if_neg h3]
          rw [hInst]
          intro p hp
          simp only [List.cons_append, List.nil_append, List.drop_succ_cons,
            List.drop_zero] at hp
          rcases List.mem_cons.mp hp with rfl | hx
          · exact ⟨rfl, by omega⟩
          · exact hP p hx
        · simp only [connectTimed, if_neg h1, if_neg h2, if_neg h3]
          exact headerPhase_timeout t eD hdrs (cD + gD) (t - (cD + gD)) _

/-- Witness for C6 (amended) at concrete runs: a successful handshake with
one header line whose later installed timeouts are the remaining deadline,
and a run that returns `Timeout` with the deadline exhausted. -/
theorem connect_timeout_discipline_witness :
    (connectTimed 10 1 2 [1] 1).installed.head? = some (1, 10) ∧
    ((3, 7) ∈ (connectTimed 10 1 2 [1] 1).installed.drop 1 →
      ((3, 7).2 = 10 - (3, 7).1 ∧ (3, 7).1 < 10)) ∧
    (5 : Nat) ≤ (connectTimed 5 4 4 [] 0).elapsed := by
  refine ⟨(connect_timeout_discipline 10 1 2 1 [1]).1 (by decide),
    fun hm => (connect_timeout_discipline 10 1 2 1 [1]).2.1 (3, 7) hm,
    (connect_timeout_discipline 5 4 4 0 []).2.2 (by decide)⟩

/-- C7 counterexample: when the write timeout fires during
`Client::try_send`, the resulting I/O error is mapped by
`map_err(Into::into)` to `Error::Io`, not to `Error::Timeout` as the claim
states. -/
theorem try_send_timeout_cex :
    (Client.try_send "hello" (some .timedOut)).2 = .error (.IoError .timedOut) ∧
    (Client.try_send "hello" (some .timedOut)).2 ≠ .error .Timeout := by decide

/-- C7 (amended): `Client::try_send(data)` writes the bytes of
`format!("{data}\n")` through the write-locked socket and returns ok on
success and `Io(e)` for every I/O failure — including the write timeout
firing, which surfaces as `Io` of a timed-out error kind; it never returns
`Timeout`. -/
theorem try_send_io_mapping (data : String) (writeResult : Option IoKind) :
    (Client.try_send data writeResult).1 = data ++ "\n" ∧
    (writeResult = none → (Client.try_send data writeResult).2 = .ok ()) ∧
    (∀ k, writeResult = some k →
      (Client.try_send data writeResult).2 = .error (.IoError k)) ∧
    (Client.try_send data writeResult).2 ≠ .error .Timeout := by
  refine ⟨rfl, ?_, ?_, ?_⟩
  · rintro rfl
    rfl
  · rintro k rfl
    rfl
  · cases writeResult <;> simp [Client.try_send]

/-- Witness for C7 (amended) at concrete inputs: a successful write and a
broken-pipe failure. -/
theorem try_send_io_mapping_witness :
    (Client.try_send "hi" none).1 = "hi\n" ∧
    (Client.try_send "hi" none).2 = .ok () ∧
    (Client.try_send "hi" (some .brokenPipe)).2 = .error (.IoError .brokenPipe) :=
  ⟨(try_send_io_mapping "hi" none).1,
   (try_send_io_mapping "hi" none).2.1 rfl,
   (try_send_io_mapping "hi" (some .brokenPipe)).2.2.1 .brokenPipe rfl⟩

/-- C8: the sentinel `Direction::Last` is never a delivered or transmitted
value — every event the client reader enqueues carries a real direction
with a defined string form; `Inner::send` keeps every outgoing queue free
of the sentinel whenever the broadcast direction is real, and
`Server::send` (whose direction is `ServerToClient`) does likewise, so the
server writer always serializes its frames through the defined arms of
`as_str`; the `Last` arms of `as_str` and `as_char` (the source's
`unreachable!()`, modelled as `none`) are reached by none of this. -/
theorem direction_last_internal_only :
    (∀ lines, ∀ ev ∈ (readerRun none lines).1,
      ev.1 ≠ Direction.Last ∧ (Direction.as_str ev.1).isSome = true) ∧
    (∀ d data cs, d ≠ Direction.Last → (∀ c ∈ cs, QueueOk c.2) →
      ∀ c ∈ (Inner.send d data cs).1, QueueOk c.2) ∧
    (∀ st data, (∀ c ∈ st.clients, QueueOk c.2) →
      ∀ c ∈ (Server.send st data).1.clients, QueueOk c.2) ∧
    (∀ q : Chan (Direction × String), QueueOk q →
      ∀ e ∈ q.buf, (writerLine e.1 e.2).isSome = true) ∧
    Direction.as_str Direction.Last = none ∧
    Direction.as_char Direction.Last = none := by
  refine ⟨?_, ?_, ?_, ?_, rfl, rfl⟩
  · intro lines ev hev
    have hd := readerRun_dir lines none (by simp) ev hev
    exact ⟨hd, as_str_isSome ev.1 hd⟩
  · exact inner_send_queueOk
  · intro st data hcs c hc
    unfold Server.send at hc
    by_cases hpos : 0 < st.client_count
    · rw [if_pos hpos] at hc
      exact inner_send_queueOk .ServerToClient data st.clients (by simp) hcs c hc
    · rw [if_neg hpos] at hc
      exact hcs c hc
  · intro q hq e he
    have hd := hq e he
    unfold writerLine
    rcases h : Direction.as_str e.1 with _ | p
    · exact absurd h (by
        cases hde : e.1 with
        | ClientToServer => simp [hde, Direction.as_str]
        | ServerToClient => simp [hde, Direction.as_str]
        | Last => exact absurd hde hd)
    · simp [h]

/-- Witness for C8 at concrete data: a reader run delivering one event, a
broadcast into a queue with room, a full server-send, and a queue whose
single entry the writer can serialize. -/
theorem direction_last_internal_only_witness :
    ((Direction.ClientToServer, "a") : Direction × String).1 ≠ Direction.Last ∧
    (Direction.as_str (Direction.ClientToServer, "a").1).isSome = true ∧
    QueueOk ((⟨1, [(.ServerToClient, "m")], false⟩ : Chan (Direction × String))) ∧
    (writerLine (Direction.ServerToClient, "m").1
      (Direction.ServerToClient, "m").2).isSome = true := by
  have h1 := direction_last_internal_only.1 [">>>a"]
    (Direction.ClientToServer, "a") (by decide)
  have h2 := direction_last_internal_only.2.2.1
    ⟨1, [(0, (⟨1, [], false⟩ : Chan (Direction × String)))]⟩ "m" (by decide)
    (0, ⟨1, [(.ServerToClient, "m")], false⟩) (by decide)
  have h3 := direction_last_internal_only.2.2.2.1
    (⟨1, [(.ServerToClient, "m")], false⟩ : Chan (Direction × String)) h2
    (.ServerToClient, "m") (by decide)
  exact ⟨h1.1, h1.2, h2, h3⟩

/-- C9 counterexample: right after the registry insert of the first
admission (server.rs:109-112) and before the counter increment
(server.rs:115-117), the registry holds one entry while `client_count` is
still zero — the intermediate state is observable under the registry lock,
so the counter does not equal the registry size at all times. -/
theorem registry_counter_transient_cex :
    (admission ⟨0, []⟩ 0).1.client_count = 0 ∧
    (admission ⟨0, []⟩ 0).1.registry.length = 1 ∧
    ¬ (admission ⟨0, []⟩ 0).1.client_count =
      (admission ⟨0, []⟩ 0).1.registry.length := by decide

/-- C9 (amended): admission and teardown each restore the equality of
`client_count` and the registry size at their completion, but within each
— between the registry insert and the counter increment, and between the
counter decrement and the registry removal — the registry transiently
exceeds the counter by exactly one. -/
theorem registry_counter_quiescent (st : RegState) (id : Nat)
    (hinv : st.client_count = st.registry.length) (hid : id ∉ st.registry) :
    (admission st id).1.registry.length = (admission st id).1.client_count + 1 ∧
    (admission st id).2.client_count = (admission st id).2.registry.length ∧
    (∀ id2 ∈ (admission st id).2.registry,
      (teardown (admission st id).2 id2).1.registry.length =
        (teardown (admission st id).2 id2).1.client_count + 1 ∧
      (teardown (admission st id).2 id2).2.client_count =
        (teardown (admission st id).2 id2).2.registry.length) := by
  have hreg : regInsert id st.registry = st.registry ++ [id] := by
    simp [regInsert, hid]
  refine ⟨?_, ?_, ?_⟩
  · simp [admission, RegState.step, hreg, hinv]
  · simp [admission, RegState.step, hreg, hinv]
  · intro id2 hid2
    simp only [admission, RegState.step] at hid2
    rw [hreg] at hid2
    have herase : ((st.registry ++ [id]).erase id2).length =
        (st.registry ++ [id]).length - 1 := List.length_erase_of_mem hid2
    simp only [admission, teardown, RegState.step, hreg]
    constructor
    · simp only [List.length_append, List.length_singleton]
      omega
    · simp only [herase, List.length_append, List.length_singleton]
      omega

/-- Witness for C9 (amended) at the empty initial state: admitting client
7 and tearing it down again. -/
theorem registry_counter_quiescent_witness :
    (admission ⟨0, []⟩ 7).1.registry.length =
      (admission ⟨0, []⟩ 7).1.client_count + 1 ∧
    (admission ⟨0, []⟩ 7).2.client_count =
      (admission ⟨0, []⟩ 7).2.registry.length ∧
    ((teardown (admission ⟨0, []⟩ 7).2 7).1.registry.length =
      (teardown (admission ⟨0, []⟩ 7).2 7).1.client_count + 1 ∧
     (teardown (admission ⟨0, []⟩ 7).2 7).2.client_count =
      (teardown (admission ⟨0, []⟩ 7).2 7).2.registry.length) := by
  have h := registry_counter_quiescent ⟨0, []⟩ 7 rfl (by decide)
  exact ⟨h.1, h.2.1, h.2.2 7 (by decide)⟩

/-- C10: when `listener.accept()` returns an error,
`serve_with_listener` exits its accept loop — no later connection is
admitted — and returns `Ok(())`, never surfacing the accept error; the
only `Err` a caller can see comes from a bind failure in `serve`, which
yields `Io`. -/
theorem serve_accept_error_policy :
    (∀ accepts, (serve_with_listener accepts).2 = .ok ()) ∧
    (∀ pre k post, (∀ a ∈ pre, ∃ id, a = AcceptResult.conn id) →
      (serve_with_listener (pre ++ AcceptResult.err k :: post)).1 =
        pre.filterMap AcceptResult.connId) ∧
    (∀ k, serve (.error k) = ([], .error (.IoError k))) ∧
    (∀ accepts, serve (.ok accepts) = serve_with_listener accepts) ∧
    (∀ b, (serve b).2 ≠ .ok () → ∃ k, b = .error k) := by
  refine ⟨swl_ok, ?_, fun _ => rfl, fun _ => rfl, ?_⟩
  · intro pre k post hpre
    induction pre with
    | nil => rfl
    | cons a pre' ih =>
      obtain ⟨id, rfl⟩ := hpre a (List.mem_cons_self _ _)
      have h' := ih (fun a ha => hpre a (List.mem_cons_of_mem _ ha))
      simp only [List.cons_append, serve_with_listener, AcceptResult.connId,
        List.filterMap_cons, List.append_eq]
      rw [h']
  · intro b hb
    cases b with
    | ok accepts => exact absurd (swl_ok accepts) hb
    | error k => exact ⟨k, rfl⟩

/-- Witness for C10 at a concrete accept stream with an error in the
middle and a concrete bind failure. -/
theorem serve_accept_error_policy_witness :
    (serve_with_listener [.conn 5, .err .otherErr, .conn 7]).2 = .ok () ∧
    (serve_with_listener
      ([.conn 5] ++ AcceptResult.err .otherErr :: [.conn 7])).1 = [5] ∧
    serve (.error .brokenPipe) = ([], .error (.IoError .brokenPipe)) ∧
    (∃ k, (Except.error .brokenPipe : Except IoKind (List AcceptResult)) =
      .error k) := by
  refine ⟨serve_accept_error_policy.1 [.conn 5, .err .otherErr, .conn 7],
    ?_, serve_accept_error_policy.2.2.1 .brokenPipe,
    serve_accept_error_policy.2.2.2.2 (.error .brokenPipe) (by decide)⟩
  have h := serve_accept_error_policy.2.1 [.conn 5] .otherErr [.conn 7]
    (by intro a ha; simp only [List.mem_singleton] at ha; exact ⟨5, ha⟩)
  exact h.trans (by decide)

end RFlow
